import Mathlib

/-!
Shallow embedding of the councilbotmilly trading core, translated from the
Python sources (`risk_management.py`, `engine.py`, `market_state_engine.py`,
`CouncilIndicators.py`, `order_scheduler.py`), together with theorems that
settle the frozen claims about the natural-language specification.

Python floats are modelled as exact rationals (`ℚ`), Python `int(x)` on a
non-negative value as `Int.floor`, `datetime` timestamps as natural-number
seconds, fallible/optional values as `Option`, and each stateful method as an
explicit state-passing function.
-/

/-! ## Trade direction (models.TradeDirection) -/

inductive TradeDirection
  | BUY
  | SELL
  | LONG
  | SHORT
  | NEUTRAL
deriving DecidableEq, Repr

/-! ## RiskManager (risk_management.py)

State owned by `RiskManager.__init__`: the initial max daily loss, the
dynamically adjusted current max daily loss, the current PnL, and the
cooldown flag.  `check_daily_loss` is embedded as a pure state transition
that also returns the list of breach/recovery events it emits (log +
diagnostics signal + `disable_trading`), and `calculate_contract_size` as a
pure function. -/

structure RiskState where
  max_initial_daily_loss : ℚ
  current_max_daily_loss : ℚ
  current_pnl : ℚ
  cooldown_active : Bool
deriving DecidableEq, Repr

/-- Events emitted by `RiskManager.check_daily_loss`: the breach log
(`RISK BREACH` + `disable_trading`) and the recovery log. -/
inductive RiskEvent
  | breachLog
  | recoverLog
deriving DecidableEq, Repr

/-- `RiskManager.check_daily_loss`, risk_management.py lines 37-86.
`fetched_pnl = none` models `get_account_pnl()` returning `None`
(the check is skipped for that cycle). -/
def check_daily_loss (s : RiskState) (fetched_pnl : Option ℚ) :
    RiskState × List RiskEvent :=
  match fetched_pnl with
  | none => (s, [])
  | some pnl =>
    let s1 : RiskState := { s with current_pnl := pnl }
    let s2 : RiskState :=
      { s1 with current_max_daily_loss :=
          if pnl > 0 then max s1.max_initial_daily_loss (pnl * (3/10))
          else s1.max_initial_daily_loss }
    if s2.current_pnl ≤ -|s2.current_max_daily_loss| then
      if ¬ s2.cooldown_active then
        ({ s2 with cooldown_active := true }, [RiskEvent.breachLog])
      else (s2, [])
    else
      if s2.cooldown_active ∧ s2.current_pnl > -|s2.max_initial_daily_loss| * (1/2) then
        ({ s2 with cooldown_active := false }, [RiskEvent.recoverLog])
      else (s2, [])

/-- `RiskManager.calculate_contract_size`, risk_management.py lines 122-130.
`account_equity = none` models `None`; Python `int(...)` truncation equals
`Int.floor` here because both truncated quantities are non-negative on the
reachable branch. -/
def calculate_contract_size (account_equity : Option ℚ) (signal_confidence : ℚ) : ℤ :=
  match account_equity with
  | none => 0
  | some eq =>
    if eq ≤ 0 then 0
    else
      let base_size : ℤ := Rat.floor (eq / 10000)
      let effective_confidence : ℚ := max signal_confidence (3/5)
      max 1 (Rat.floor ((base_size : ℚ) * effective_confidence))

/-- `RiskManager.reset_daily_pnl_tracking`, risk_management.py lines 247-253. -/
def reset_daily_pnl_tracking (s : RiskState) : RiskState :=
  { s with current_pnl := 0
           current_max_daily_loss := s.max_initial_daily_loss
           cooldown_active := false }

example : calculate_contract_size (some 25000) (1/2) = 1 := by with_unfolding_all decide

example : calculate_contract_size (some 40000) (9/10) = 3 := by with_unfolding_all decide

/-! ### Claim C1 — sizing literals

The spec pins `sizePosition(equity=None, confidence=0.9) == 0` and
`sizePosition(equity=25000, confidence=0.5) == 2`.  The code (and the spec's
own parenthetical derivation: base=2, effectiveConfidence=0.6,
floor(2*0.6)=1, forced min 1) yields 1 for the second case, so the claim is
corrected: the only change forced by the counterexample is `2 → 1`. -/

/-- C1 counterexample: `calculate_contract_size(equity=25000, confidence=0.5)`
evaluates to 1, not 2 as the claim's second pinned literal states. -/
theorem C1_counterexample :
    calculate_contract_size (some 25000) (1/2) ≠ 2 := by
  with_unfolding_all decide

/-- C1 (amended): the simplified sizing path returns 0 whenever equity is
unknown (`None`) or ≤ 0 — for every confidence — and
`calculate_contract_size(equity=25000, confidence=0.5) = 1`
(base=2, effectiveConfidence=0.6, floor(2*0.6)=1, forced min 1). -/
theorem C1_sizing_literals :
    (∀ conf : ℚ, calculate_contract_size none conf = 0) ∧
    (∀ (eq : ℚ) (conf : ℚ), eq ≤ 0 → calculate_contract_size (some eq) conf = 0) ∧
    calculate_contract_size (some 25000) (1/2) = 1 := by
  refine ⟨fun _ => rfl, fun eq conf h => ?_, by with_unfolding_all decide⟩
  simp only [calculate_contract_size, if_pos h]

/-- C1 witness: the fail-closed branches of `C1_sizing_literals` applied at
the concrete inputs `equity=None, confidence=0.9` and
`equity=-100, confidence=0.9`. -/
theorem C1_sizing_literals_witness :
    calculate_contract_size none (9/10) = 0 ∧
    calculate_contract_size (some (-100)) (9/10) = 0 :=
  ⟨C1_sizing_literals.1 (9/10),
   C1_sizing_literals.2.1 (-100) (9/10) (by with_unfolding_all decide)⟩

/-! ## ExecutionEngine (engine.py)

The engine's mutable attributes become an explicit `EngineState`; the
`hasattr`-tracked `active_live_trade_tracking` dict becomes an `Option`
field; `datetime.utcnow()` readings and generated UUIDs are passed in as
parameters; the async order-placement result is passed in as an
`Option String` order id. -/

/-- `ExecutionEngine.tick_size` (engine.py line 45): ES tick size 0.25. -/
def tick_size : ℚ := 1/4

/-- `ExecutionEngine.tick_value` (engine.py line 46): $12.50 per tick. -/
def tick_value : ℚ := 25/2

/-- models.TradeSignal, restricted to the fields the engine reads. -/
structure TradeSignalM where
  strategy : String
  direction : TradeDirection
  confidence : ℚ
  contract_id : String
  entry_price : Option ℚ := none
  stop_loss_ticks : Option ℤ := none
  take_profit_ticks : Option ℤ := none
  volatility : Option ℚ := none
deriving DecidableEq, Repr

/-- models.Order, restricted to the fields `_initiate_live_trade` sets. -/
structure Order where
  order_id : String
  contract_id : String
  direction : TradeDirection
  size : ℤ
  status : String
deriving DecidableEq, Repr

/-- models.Position, restricted to the fields `get_active_trade` reads. -/
structure Position where
  contract_id : String
  quantity : ℤ
  avg_price : ℚ
  status : String
  unrealized_pnl : ℚ
  timestamp : ℕ
deriving DecidableEq, Repr

/-- models.TradeRecord, restricted to the fields the engine writes. -/
structure TradeRecord where
  symbol : String
  entry_price : ℚ
  exit_price : ℚ
  size : ℤ
  direction : TradeDirection
  pnl : ℚ
  strategy : String
  exit_reason : Option String
  entry_time : Option ℕ
  exit_time : Option ℕ
deriving DecidableEq, Repr

/-- The `active_simulated_trade` dict built in `_initiate_simulated_trade`
(engine.py lines 204-219). -/
structure SimulatedTrade where
  id : String
  contract_id : String
  direction : TradeDirection
  size : ℤ
  entry_price : ℚ
  open_time : ℕ
  status : String
  stop_price : ℚ
  target_price : ℚ
  pnl_value : ℚ
  closed_pnl : ℚ
  exit_price : Option ℚ
  exit_time : Option ℕ
  exit_reason : Option String
  strategy : String
deriving DecidableEq, Repr

/-- The `active_live_trade_tracking` dict built in `_initiate_live_trade`
(engine.py lines 156-168). -/
structure LiveTradeTracking where
  contract_id : String
  entry_order_id : String
  direction : TradeDirection
  size : ℤ
  entry_price : Option ℚ
  stop_loss_price : ℚ
  take_profit_price : ℚ
  status : String
  open_time : ℕ
  realized_pnl : ℚ
  strategy : String
  exit_order_id : Option String := none
  exit_reason : Option String := none
deriving DecidableEq, Repr

/-- The mutable state of `ExecutionEngine` (engine.py `__init__`,
lines 34-58); dictionaries become association lists. -/
structure EngineState where
  active_orders : List (String × Order)
  live_positions : List (String × Position)
  active_simulated_trade : Option SimulatedTrade
  total_simulated_pnl : ℚ
  pending_sim_log_updates : List TradeRecord
  active_live_trade_tracking : Option LiveTradeTracking
  pending_live_log_updates : List TradeRecord
  pending_trade_records_for_live_total_pnl : List TradeRecord
  virtual_sl_ticks : ℤ
  virtual_tp_ticks : ℤ
deriving DecidableEq, Repr

/-- The `quotes` part of the market snapshot as read by the engine's
entry-price fallback `snapshot.get("quotes", {}).get("mid_price",
snapshot.get("quotes", {}).get("last", 0.0))` (engine.py lines 147, 194):
an absent `mid_price`/`last` key falls through, ending at the literal
`0.0`. -/
structure QuotesView where
  mid_price : Option ℚ
  last : Option ℚ
deriving DecidableEq, Repr

/-- The engine's snapshot-price fallback chain: `mid_price`, else `last`,
else `0.0`. -/
def resolve_snapshot_price (q : QuotesView) : ℚ :=
  q.mid_price.getD (q.last.getD 0)

/-- `ExecutionEngine.get_active_trade` with `live_mode=False`
(engine.py lines 534-537). -/
def get_active_trade_sim (s : EngineState) : Option SimulatedTrade :=
  match s.active_simulated_trade with
  | some t => if t.status = "OPEN" then some t else none
  | none => none

/-- The composite view `get_active_trade` returns for the GUI in live mode
(engine.py lines 522-532). -/
structure LiveActiveView where
  contract_id : String
  direction : TradeDirection
  entry_price : ℚ
  size : ℤ
  open_time : ℕ
  status : String
  stop_price : Option ℚ
  target_price : Option ℚ
  pnl_value : ℚ
deriving DecidableEq, Repr

/-- Association-list lookup standing in for Python `dict.get`. -/
def dictFind (d : List (String × α)) (k : String) : Option α :=
  (d.find? (fun kv => kv.1 = k)).map Prod.snd

/-- `Position.direction` property (models.py line 149): sign of quantity. -/
def position_direction (p : Position) : TradeDirection :=
  if p.quantity > 0 then TradeDirection.LONG
  else if p.quantity < 0 then TradeDirection.SHORT
  else TradeDirection.NEUTRAL

/-- `ExecutionEngine.get_active_trade` with `live_mode=True`
(engine.py lines 515-533): requires a tracking dict whose status is not in
the closing/exit list, and a looked-up position with nonzero quantity. -/
def get_active_trade_live (s : EngineState) : Option LiveActiveView :=
  match s.active_live_trade_tracking with
  | none => none
  | some t =>
    if t.status = "CLOSING_PENDING" ∨ t.status = "CLOSING_ORDER_SENT" ∨
       t.status = "EXIT_FILLED_AWAITING_POSITION" ∨ t.status = "EXIT_FAILED" then
      none
    else
      match dictFind s.live_positions t.contract_id with
      | some p =>
        if p.quantity ≠ 0 then
          some { contract_id := t.contract_id
                 direction := position_direction p
                 entry_price := p.avg_price
                 size := |p.quantity|
                 open_time := p.timestamp
                 status := p.status
                 stop_price := some t.stop_loss_price
                 target_price := some t.take_profit_price
                 pnl_value := p.unrealized_pnl }
        else none
      | none => none

/-- Outcome of `_initiate_simulated_trade`. -/
inductive SimInitOutcome
  | rejectedActiveTrade
  | opened
deriving DecidableEq, Repr

/-- `ExecutionEngine._initiate_simulated_trade` (engine.py lines 180-221).
`trade_id` models the generated `uuid4`, `now` the `datetime.utcnow()`
reading, `q` the quotes of the current market snapshot. -/
def initiate_simulated_trade (s : EngineState) (sig : TradeSignalM) (size : ℤ)
    (q : QuotesView) (now : ℕ) (trade_id : String) :
    EngineState × SimInitOutcome :=
  if (get_active_trade_sim s).isSome then (s, SimInitOutcome.rejectedActiveTrade)
  else
    let entry_price : ℚ :=
      match sig.entry_price with
      | some e => e
      | none =>
        let p := resolve_snapshot_price q
        if p = 0 then 1 else p
    let direction_multiplier : ℚ := if sig.direction = TradeDirection.BUY then 1 else -1
    let stop_price := entry_price - (s.virtual_sl_ticks : ℚ) * tick_size * direction_multiplier
    let target_price := entry_price + (s.virtual_tp_ticks : ℚ) * tick_size * direction_multiplier
    ({ s with active_simulated_trade := some (
        { id := trade_id
          contract_id := sig.contract_id
          direction := sig.direction
          size := size
          entry_price := entry_price
          open_time := now
          status := "OPEN"
          stop_price := stop_price
          target_price := target_price
          pnl_value := 0
          closed_pnl := 0
          exit_price := none
          exit_time := none
          exit_reason := none
          strategy := sig.strategy } : SimulatedTrade) },
     SimInitOutcome.opened)

/-- `ExecutionEngine._update_simulated_trade_price` (engine.py lines
293-355): recompute unrealized PnL, check take-profit then stop-loss, and
on a trigger close the trade, accumulate realized PnL, append the
`TradeRecord`, and clear the active slot. `now` models
`datetime.utcnow()`. -/
def update_simulated_trade_price (s : EngineState) (current_price : ℚ) (now : ℕ) :
    EngineState :=
  match s.active_simulated_trade with
  | none => s
  | some trade =>
    if trade.status ≠ "OPEN" then s
    else
      let direction_multiplier : ℚ := if trade.direction = TradeDirection.BUY then 1 else -1
      let entry_price := trade.entry_price
      let unrealized_pnl_usd :=
        (current_price - entry_price) * direction_multiplier * tick_value / tick_size * (trade.size : ℚ)
      let hit : Option String :=
        if trade.direction = TradeDirection.BUY then
          if current_price ≥ trade.target_price then some "TP Hit"
          else if current_price ≤ trade.stop_price then some "SL Hit"
          else none
        else
          if current_price ≤ trade.target_price then some "TP Hit"
          else if current_price ≥ trade.stop_price then some "SL Hit"
          else none
      match hit with
      | none =>
        { s with active_simulated_trade := some { trade with pnl_value := unrealized_pnl_usd } }
      | some reason =>
        let closed_pnl_usd :=
          (current_price - entry_price) * direction_multiplier * tick_value / tick_size * (trade.size : ℚ)
        let record : TradeRecord :=
          { symbol := trade.contract_id
            entry_price := trade.entry_price
            exit_price := current_price
            size := trade.size
            direction := trade.direction
            pnl := closed_pnl_usd
            strategy := trade.strategy
            exit_reason := some reason
            entry_time := some trade.open_time
            exit_time := some now }
        { s with
            total_simulated_pnl := s.total_simulated_pnl + closed_pnl_usd
            pending_sim_log_updates := s.pending_sim_log_updates ++ [record]
            active_simulated_trade := none }

/-- Outcome of `_initiate_live_trade`. -/
inductive LiveInitOutcome
  | rejectedActiveTrade
  | orderFailed
  | orderPlacedNoTracking
  | orderPlacedTracked
deriving DecidableEq, Repr

/-- `ExecutionEngine._initiate_live_trade` (engine.py lines 104-177).
`order_id` models the result of the awaited `place_order_to_topstep`
call (`none` = no order id returned); `q` the snapshot quotes for the
entry-price fallback; `now` the `datetime.utcnow()` reading. -/
def initiate_live_trade (s : EngineState) (sig : TradeSignalM) (size : ℤ)
    (order_id : Option String) (q : QuotesView) (now : ℕ) :
    EngineState × LiveInitOutcome :=
  if (get_active_trade_live s).isSome then (s, LiveInitOutcome.rejectedActiveTrade)
  else
    match order_id with
    | none => (s, LiveInitOutcome.orderFailed)
    | some oid =>
      let ord : Order :=
        { order_id := oid
          contract_id := sig.contract_id
          direction := sig.direction
          size := size
          status := "PENDING" }
      let s1 := { s with active_orders := s.active_orders ++ [(oid, ord)] }
      let expected_entry_price : ℚ :=
        match sig.entry_price with
        | some e => e
        | none => resolve_snapshot_price q
      match sig.stop_loss_ticks, sig.take_profit_ticks with
      | some sl_ticks, some tp_ticks =>
        if expected_entry_price > 0 then
          let direction_multiplier : ℚ := if sig.direction = TradeDirection.BUY then 1 else -1
          let stop_loss_price := expected_entry_price - (sl_ticks : ℚ) * tick_size * direction_multiplier
          let take_profit_price := expected_entry_price + (tp_ticks : ℚ) * tick_size * direction_multiplier
          ({ s1 with active_live_trade_tracking := some (
              { contract_id := sig.contract_id
                entry_order_id := oid
                direction := sig.direction
                size := size
                entry_price := none
                stop_loss_price := stop_loss_price
                take_profit_price := take_profit_price
                status := "PENDING_ENTRY_FILL"
                open_time := now
                realized_pnl := 0
                strategy := sig.strategy } : LiveTradeTracking) },
           LiveInitOutcome.orderPlacedTracked)
        else (s1, LiveInitOutcome.orderPlacedNoTracking)
      | _, _ => (s1, LiveInitOutcome.orderPlacedNoTracking)

/-- `ExecutionEngine.reset_pnl_and_trades` (engine.py lines 560-576). -/
def reset_pnl_and_trades (s : EngineState) (live_mode : Bool) : EngineState :=
  if live_mode then
    { s with
        live_positions := []
        active_orders := []
        active_live_trade_tracking := none
        pending_live_log_updates := []
        pending_trade_records_for_live_total_pnl := [] }
  else
    { s with
        total_simulated_pnl := 0
        active_simulated_trade := none
        pending_sim_log_updates := [] }

/-! ### Claim C6 — daily-loss breach idempotence -/

/-- C6: the daily-loss breach transition of `check_daily_loss` is
idempotent: for every PnL with `pnl ≤ -abs(maxInitialDailyLoss)` (which is
what `-abs(currentMaxDailyLoss)` becomes after the non-positive-PnL
adjustment), the first call from a non-cooldown state sets
`cooldown_active` and emits the breach event exactly once, and a repeated
call with the same PnL leaves the state unchanged and emits nothing. -/
theorem C6_breach_idempotent (s : RiskState) (pnl : ℚ)
    (hcool : s.cooldown_active = false)
    (hbreach : pnl ≤ -|s.max_initial_daily_loss|) :
    (check_daily_loss s (some pnl)).1.cooldown_active = true ∧
    (check_daily_loss s (some pnl)).2 = [RiskEvent.breachLog] ∧
    check_daily_loss (check_daily_loss s (some pnl)).1 (some pnl) =
      ((check_daily_loss s (some pnl)).1, []) := by
  have hnp : ¬ pnl > 0 := by
    have h0 : -|s.max_initial_daily_loss| ≤ 0 := neg_nonpos.mpr (abs_nonneg _)
    exact not_lt.mpr (hbreach.trans h0)
  simp only [check_daily_loss, if_neg hnp, hcool, Bool.false_eq_true,
    not_false_iff, if_pos hbreach, if_true, Bool.not_false, ite_true,
    Bool.not_true, not_true, if_false]
  refine ⟨trivial, trivial, ?_⟩
  simp [hbreach]

/-- C6 witness: `C6_breach_idempotent` at the concrete state with
`maxInitialDailyLoss = 1000`, no cooldown, and `pnl = -1000`. -/
theorem C6_breach_idempotent_witness :
    (check_daily_loss ⟨1000, 1000, 0, false⟩ (some (-1000))).1.cooldown_active = true ∧
    (check_daily_loss ⟨1000, 1000, 0, false⟩ (some (-1000))).2 = [RiskEvent.breachLog] ∧
    check_daily_loss (check_daily_loss ⟨1000, 1000, 0, false⟩ (some (-1000))).1 (some (-1000)) =
      ((check_daily_loss ⟨1000, 1000, 0, false⟩ (some (-1000))).1, []) :=
  C6_breach_idempotent ⟨1000, 1000, 0, false⟩ (-1000) rfl
    (by with_unfolding_all decide)

/-! ### Claim C2 — take-profit priority over stop-loss (simulated) -/

/-- C2: for every active simulated trade in state OPEN, a price update that
simultaneously satisfies the take-profit condition and the stop-loss
condition closes the trade with exit reason "TP Hit" (and clears the
active slot), in both directions: TP is checked before SL. -/
theorem C2_tp_priority (s : EngineState) (t : SimulatedTrade) (p : ℚ) (now : ℕ)
    (hact : s.active_simulated_trade = some t)
    (hopen : t.status = "OPEN")
    (hboth : (t.direction = TradeDirection.BUY ∧ t.target_price ≤ p ∧ p ≤ t.stop_price) ∨
             (t.direction = TradeDirection.SELL ∧ p ≤ t.target_price ∧ t.stop_price ≤ p)) :
    (update_simulated_trade_price s p now).active_simulated_trade = none ∧
    ∃ r : TradeRecord,
      (update_simulated_trade_price s p now).pending_sim_log_updates =
        s.pending_sim_log_updates ++ [r] ∧
      r.exit_reason = some "TP Hit" := by
  rcases hboth with ⟨hd, h1, h2⟩ | ⟨hd, h1, h2⟩ <;>
    simp [update_simulated_trade_price, hact, hopen, hd, h1, h2, ge_iff_le]

/-- A concrete OPEN simulated BUY trade with a stale stop (102) above its
target (101.5). -/
def simTradeC2 : SimulatedTrade :=
  { id := "T1"
    contract_id := "CON.F.US.EP.M25"
    direction := TradeDirection.BUY
    size := 1
    entry_price := 100
    open_time := 0
    status := "OPEN"
    stop_price := 102
    target_price := 203/2
    pnl_value := 0
    closed_pnl := 0
    exit_price := none
    exit_time := none
    exit_reason := none
    strategy := "ICT" }

/-- An engine state holding `simTradeC2` as the active simulated trade. -/
def engineStateC2 : EngineState :=
  { active_orders := []
    live_positions := []
    active_simulated_trade := some simTradeC2
    total_simulated_pnl := 0
    pending_sim_log_updates := []
    active_live_trade_tracking := none
    pending_live_log_updates := []
    pending_trade_records_for_live_total_pnl := []
    virtual_sl_ticks := 10
    virtual_tp_ticks := 20 }

/-- C2 witness: `C2_tp_priority` at the concrete BUY trade with
entry=100, target=101.5, stale stop=102, and the price update 101.5 that
satisfies both conditions. -/
theorem C2_tp_priority_witness :
    (update_simulated_trade_price engineStateC2 (203/2) 7).active_simulated_trade = none ∧
    ∃ r : TradeRecord,
      (update_simulated_trade_price engineStateC2 (203/2) 7).pending_sim_log_updates =
        engineStateC2.pending_sim_log_updates ++ [r] ∧
      r.exit_reason = some "TP Hit" :=
  C2_tp_priority engineStateC2 simTradeC2 (203/2) 7 rfl rfl
    (Or.inl ⟨rfl, by with_unfolding_all decide, by with_unfolding_all decide⟩)

/-! ### Claim C9 — reset_pnl_and_trades frame effect -/

/-- C9: `reset_pnl_and_trades` mutates only the selected mode's state: with
`live_mode=False` it clears the simulated PnL, the active simulated trade
slot and the pending simulated log buffer, leaving all live-mode fields
unchanged; with `live_mode=True` it clears the live-mode fields and leaves
all simulated-mode fields unchanged. -/
theorem C9_reset_frame (s : EngineState) :
    ((reset_pnl_and_trades s false).total_simulated_pnl = 0 ∧
     (reset_pnl_and_trades s false).active_simulated_trade = none ∧
     (reset_pnl_and_trades s false).pending_sim_log_updates = [] ∧
     (reset_pnl_and_trades s false).live_positions = s.live_positions ∧
     (reset_pnl_and_trades s false).active_orders = s.active_orders ∧
     (reset_pnl_and_trades s false).active_live_trade_tracking = s.active_live_trade_tracking ∧
     (reset_pnl_and_trades s false).pending_live_log_updates = s.pending_live_log_updates ∧
     (reset_pnl_and_trades s false).pending_trade_records_for_live_total_pnl =
       s.pending_trade_records_for_live_total_pnl) ∧
    ((reset_pnl_and_trades s true).total_simulated_pnl = s.total_simulated_pnl ∧
     (reset_pnl_and_trades s true).active_simulated_trade = s.active_simulated_trade ∧
     (reset_pnl_and_trades s true).pending_sim_log_updates = s.pending_sim_log_updates ∧
     (reset_pnl_and_trades s true).live_positions = [] ∧
     (reset_pnl_and_trades s true).active_orders = [] ∧
     (reset_pnl_and_trades s true).active_live_trade_tracking = none ∧
     (reset_pnl_and_trades s true).pending_live_log_updates = [] ∧
     (reset_pnl_and_trades s true).pending_trade_records_for_live_total_pnl = []) := by
  simp [reset_pnl_and_trades]

/-! ### Claim C10 — dummy entry price 1.0 for price-less simulated entry -/

/-- C10: a simulated trade initiated from a signal with no entry price while
the snapshot provides neither mid nor last price (the fallback lookup
resolves to 0.0) is not rejected: it opens with the dummy entry price 1.0,
and its stop and target prices are derived from that dummy value. -/
theorem C10_dummy_entry (s : EngineState) (sig : TradeSignalM) (size : ℤ)
    (q : QuotesView) (now : ℕ) (tid : String)
    (hno : s.active_simulated_trade = none)
    (hentry : sig.entry_price = none)
    (hmid : q.mid_price = none) (hlast : q.last = none) :
    (initiate_simulated_trade s sig size q now tid).2 = SimInitOutcome.opened ∧
    ∃ t : SimulatedTrade,
      (initiate_simulated_trade s sig size q now tid).1.active_simulated_trade = some t ∧
      t.status = "OPEN" ∧
      t.entry_price = 1 ∧
      t.stop_price = 1 - (s.virtual_sl_ticks : ℚ) * tick_size *
        (if sig.direction = TradeDirection.BUY then 1 else -1) ∧
      t.target_price = 1 + (s.virtual_tp_ticks : ℚ) * tick_size *
        (if sig.direction = TradeDirection.BUY then 1 else -1) := by
  have hres : resolve_snapshot_price q = 0 := by
    simp [resolve_snapshot_price, hmid, hlast]
  simp [initiate_simulated_trade, get_active_trade_sim, hno, hentry, hres]

/-- A signal carrying no entry price. -/
def sigC10 : TradeSignalM :=
  { strategy := "Delta"
    direction := TradeDirection.BUY
    confidence := 4/5
    contract_id := "CON.F.US.EP.M25"
    entry_price := none
    stop_loss_ticks := none
    take_profit_ticks := none
    volatility := none }

/-- An engine state with no active simulated trade. -/
def engineStateC10 : EngineState :=
  { engineStateC2 with active_simulated_trade := none }

/-- C10 witness: `C10_dummy_entry` at a concrete empty-snapshot state. -/
theorem C10_dummy_entry_witness :
    (initiate_simulated_trade engineStateC10 sigC10 2 ⟨none, none⟩ 3 "T2").2 =
      SimInitOutcome.opened ∧
    ∃ t : SimulatedTrade,
      (initiate_simulated_trade engineStateC10 sigC10 2 ⟨none, none⟩ 3 "T2").1.active_simulated_trade = some t ∧
      t.status = "OPEN" ∧
      t.entry_price = 1 ∧
      t.stop_price = 1 - (engineStateC10.virtual_sl_ticks : ℚ) * tick_size *
        (if sigC10.direction = TradeDirection.BUY then 1 else -1) ∧
      t.target_price = 1 + (engineStateC10.virtual_tp_ticks : ℚ) * tick_size *
        (if sigC10.direction = TradeDirection.BUY then 1 else -1) :=
  C10_dummy_entry engineStateC10 sigC10 2 ⟨none, none⟩ 3 "T2" rfl rfl rfl rfl

/-! ### Claim C3 — live single-flight guard hole (code bug)

`_initiate_live_trade` guards re-entry with `get_active_trade(live_mode=True)`,
but that helper returns a trade only when a looked-up `Position` with nonzero
quantity exists.  While the tracked live trade is still in
`PENDING_ENTRY_FILL` — before the first position update has arrived —
`live_positions` has no entry for the contract, so the guard sees `None`, a
second `execute_trade` call places a second entry order and overwrites
`active_live_trade_tracking`, contradicting the spec's single-flight
invariant ("a concurrent entry attempt while one is active (in any
non-terminal state) is rejected"). -/

/-- A live trade tracking record in state `PENDING_ENTRY_FILL` with no
position update received yet. -/
def liveTrackingC3 : LiveTradeTracking :=
  { contract_id := "CON.F.US.EP.M25"
    entry_order_id := "ord1"
    direction := TradeDirection.BUY
    size := 1
    entry_price := none
    stop_loss_price := 99
    take_profit_price := 102
    status := "PENDING_ENTRY_FILL"
    open_time := 0
    realized_pnl := 0
    strategy := "ICT" }

/-- Engine state tracking `liveTrackingC3` with an empty `live_positions`
map (the entry fill has not been reported yet). -/
def engineStateC3 : EngineState :=
  { active_orders := [("ord1",
      { order_id := "ord1"
        contract_id := "CON.F.US.EP.M25"
        direction := TradeDirection.BUY
        size := 1
        status := "PENDING" })]
    live_positions := []
    active_simulated_trade := none
    total_simulated_pnl := 0
    pending_sim_log_updates := []
    active_live_trade_tracking := some liveTrackingC3
    pending_live_log_updates := []
    pending_trade_records_for_live_total_pnl := []
    virtual_sl_ticks := 10
    virtual_tp_ticks := 20 }

/-- A second live entry signal arriving while the first entry order is
still awaiting its fill. -/
def sigC3 : TradeSignalM :=
  { strategy := "ICT"
    direction := TradeDirection.BUY
    confidence := 9/10
    contract_id := "CON.F.US.EP.M25"
    entry_price := some 100
    stop_loss_ticks := some 4
    take_profit_ticks := some 8
    volatility := none }

/-- C3 failing input evaluated on the embedded code: while a live trade is
tracked in the non-terminal state `PENDING_ENTRY_FILL` with no position
update yet, `get_active_trade(live_mode=True)` returns `None`, so a second
live `execute_trade` call is NOT rejected: it places a new entry order
("ord2") and overwrites the tracking state — the claim (and the spec's
single-flight invariant) fails on the code. -/
theorem C3_second_entry_not_rejected :
    engineStateC3.active_live_trade_tracking = some liveTrackingC3 ∧
    liveTrackingC3.status = "PENDING_ENTRY_FILL" ∧
    get_active_trade_live engineStateC3 = none ∧
    (initiate_live_trade engineStateC3 sigC3 1 (some "ord2") ⟨none, none⟩ 5).2 =
      LiveInitOutcome.orderPlacedTracked ∧
    Option.map (fun t => t.entry_order_id)
      (initiate_live_trade engineStateC3 sigC3 1 (some "ord2") ⟨none, none⟩ 5).1.active_live_trade_tracking =
      some "ord2" ∧
    (initiate_live_trade engineStateC3 sigC3 1 (some "ord2") ⟨none, none⟩ 5).1.active_orders.length = 2 := by
  with_unfolding_all decide

/-! ## MarketStateEngine (market_state_engine.py) -/

/-- A depth level message from the feed; `process_depth` inspects only
`position` and `size` (other fields are carried opaquely and are not
modelled). -/
structure DepthLevelMsg where
  position : Option ℤ
  size : Option ℚ
deriving DecidableEq, Repr

/-- Python dict insertion (last write wins for an existing key, insertion
order otherwise preserved), for the depth book keyed by `position`. -/
def insertDepth (d : List (ℤ × DepthLevelMsg)) (k : ℤ) (v : DepthLevelMsg) :
    List (ℤ × DepthLevelMsg) :=
  if (d.find? (fun kv => decide (kv.1 = k))).isSome then
    d.map (fun kv => if kv.1 = k then (k, v) else kv)
  else d ++ [(k, v)]

/-- `MarketStateEngine.process_depth` (market_state_engine.py lines
107-121): an empty (or missing) payload clears the stored book; otherwise
the book is rebuilt from scratch from the levels that carry both a
`position` and a `size` (full replacement, not a merge). -/
def process_depth (depth : List (ℤ × DepthLevelMsg)) (levels : List DepthLevelMsg) :
    List (ℤ × DepthLevelMsg) :=
  if levels.isEmpty then []
  else
    levels.foldl (fun d lvl =>
      match lvl.position, lvl.size with
      | some p, some _ => insertDepth d p lvl
      | _, _ => d) []

/-! ### Claim C8 — empty depth payload

The claim says an empty depth payload is dropped leaving the previously
stored book unchanged.  The code instead executes `self.depth = {}` on an
empty payload (with a debug log, market_state_engine.py lines 110-112):
the stored book is cleared, not preserved.  The claim is corrected to say
the book is cleared; the never-raises part stands (the embedding is a
total function). -/

/-- C8 counterexample: with a non-empty stored book, an empty depth payload
does NOT leave the book unchanged — `process_depth` clears it. -/
theorem C8_counterexample :
    process_depth [((1 : ℤ), ⟨some 1, some 5⟩)] [] ≠ [((1 : ℤ), ⟨some 1, some 5⟩)] := by
  with_unfolding_all decide

/-- C8 (amended): for every previously stored depth book, an empty depth
payload is dropped without touching any stored level data beyond clearing:
the book is reset to empty (`self.depth = {}`), totally (never raising). -/
theorem C8_empty_depth_clears (depth : List (ℤ × DepthLevelMsg)) :
    process_depth depth [] = [] := rfl

/-! ## Bar aggregation (market_state_engine.py `_update_bars`, `_round_time`)

Timestamps are seconds since epoch.  `_round_time` keeps the date and
floors the time of day (hour/minute) to the interval boundary, zeroing
seconds and microseconds. -/

/-- One OHLCV bar as built in `_update_bars` (keys t/o/h/l/c/v). -/
structure Bar where
  t : ℕ
  o : ℚ
  h : ℚ
  l : ℚ
  c : ℚ
  v : ℚ
deriving DecidableEq, Repr

/-- `MarketStateEngine._round_time` (lines 156-172) on seconds-since-epoch:
`day` preserves the date, `total_minutes` is minutes from midnight, and the
result is the start of the enclosing `minutes`-wide interval. -/
def round_time (ts : ℕ) (minutes : ℕ) : ℕ :=
  ts / 86400 * 86400 + ts % 86400 / 60 / minutes * minutes * 60

/-- Per-interval bar state: the bounded history deque and the current bar. -/
structure BarSetState where
  bars : List Bar
  current_bar : Option Bar
deriving DecidableEq, Repr

/-- `deque(maxlen=200)` append: append on the right, dropping the oldest
(leftmost) element once the capacity of 200 is exceeded. -/
def append_bounded (hist : List Bar) (b : Bar) : List Bar :=
  if 200 < (hist ++ [b]).length then (hist ++ [b]).drop 1 else hist ++ [b]

/-- `MarketStateEngine._update_bars` (lines 123-154) for one interval
width: on an interval change the current bar (if any) is closed into the
history and a fresh bar opens; otherwise the current bar is updated in
place. -/
def update_bars_one (minutes : ℕ) (st : BarSetState) (ts : ℕ) (price size : ℚ) :
    BarSetState :=
  let rounded := round_time ts minutes
  match st.current_bar with
  | some bar =>
    if bar.t = rounded then
      { st with current_bar := some (
          { bar with h := max bar.h price, l := min bar.l price, c := price, v := bar.v + size }) }
    else
      { bars := append_bounded st.bars bar
        current_bar := some { t := rounded, o := price, h := price, l := price, c := price, v := size } }
  | none =>
    { st with current_bar := some { t := rounded, o := price, h := price, l := price, c := price, v := size } }

/-- The three per-interval bar states kept by `MarketStateEngine.__init__`
(`self.bars`/`self.current_bar` for 1, 5 and 15 minutes). -/
structure BarsState where
  b1 : BarSetState
  b5 : BarSetState
  b15 : BarSetState
deriving DecidableEq, Repr

/-- `_update_bars` over all three tracked interval widths. -/
def update_bars (s : BarsState) (ts : ℕ) (price size : ℚ) : BarsState :=
  { b1 := update_bars_one 1 s.b1 ts price size
    b5 := update_bars_one 5 s.b5 ts price size
    b15 := update_bars_one 15 s.b15 ts price size }

/-- Initial bar state: empty histories, no current bars. -/
def initBarsState : BarsState := ⟨⟨[], none⟩, ⟨[], none⟩, ⟨[], none⟩⟩

/-- A sequence of processed trades, each `(timestamp, price, size)` — the
timestamp is the `datetime.utcnow()` reading taken by
`_process_single_trade` at arrival. -/
def process_trades (s : BarsState) (trades : List (ℕ × ℚ × ℚ)) : BarsState :=
  trades.foldl (fun st tr => update_bars st tr.1 tr.2.1 tr.2.2) s

/-- The bar-history guarantees claimed for each interval: strictly
time-ordered history (hence no duplicate `intervalStart`), bounded to 200
bars, every historical bar strictly older than the current bar, and the
still-open current bar never present in the history. -/
def goodBarHistory (st : BarSetState) : Prop :=
  List.Pairwise (fun a b : Bar => a.t < b.t) st.bars ∧
  st.bars.length ≤ 200 ∧
  (∀ c, st.current_bar = some c → ∀ b ∈ st.bars, b.t < c.t) ∧
  (∀ c, st.current_bar = some c → c ∉ st.bars)

/-! ### Claim C4 — bar-history invariants -/

/-- `_round_time` is monotone in the timestamp: flooring the time of day to
an interval boundary while keeping the date preserves order (for every
interval width, across day boundaries included). -/
theorem round_time_mono (m : ℕ) {ts1 ts2 : ℕ} (h : ts1 ≤ ts2) :
    round_time ts1 m ≤ round_time ts2 m := by
  unfold round_time
  have hday : ts1 / 86400 ≤ ts2 / 86400 := Nat.div_le_div_right h
  have hm1 : ts1 % 86400 ≤ 86399 := Nat.le_of_lt_succ (Nat.mod_lt _ (by norm_num))
  have hb1 : ts1 % 86400 / 60 / m * m ≤ 1439 := by
    calc ts1 % 86400 / 60 / m * m ≤ ts1 % 86400 / 60 := Nat.div_mul_le_self _ _
    _ ≤ 86399 / 60 := Nat.div_le_div_right hm1
    _ ≤ 1439 := by norm_num
  rcases Nat.eq_or_lt_of_le hday with heq | hlt
  · have hmod : ts1 % 86400 ≤ ts2 % 86400 := by omega
    have hs : ts1 % 86400 / 60 / m * m ≤ ts2 % 86400 / 60 / m * m :=
      Nat.mul_le_mul_right m (Nat.div_le_div_right (Nat.div_le_div_right hmod))
    omega
  · omega

/-- Membership in a bounded append comes from the old history or is the
newly appended bar. -/
theorem append_bounded_subset {hist : List Bar} {x b : Bar}
    (hb : b ∈ append_bounded hist x) : b ∈ hist ∨ b = x := by
  unfold append_bounded at hb
  split at hb
  · rcases List.mem_append.mp (List.mem_of_mem_drop hb) with h | h
    · exact Or.inl h
    · exact Or.inr (List.mem_singleton.mp h)
  · rcases List.mem_append.mp hb with h | h
    · exact Or.inl h
    · exact Or.inr (List.mem_singleton.mp h)

/-- Bounded append preserves strict time-ordering when the appended bar is
newer than every bar in the history. -/
theorem append_bounded_pairwise {hist : List Bar} {x : Bar}
    (hp : List.Pairwise (fun a b : Bar => a.t < b.t) hist)
    (hall : ∀ b ∈ hist, b.t < x.t) :
    List.Pairwise (fun a b : Bar => a.t < b.t) (append_bounded hist x) := by
  have h2 : List.Pairwise (fun a b : Bar => a.t < b.t) (hist ++ [x]) := by
    rw [List.pairwise_append]
    refine ⟨hp, List.pairwise_singleton _ _, fun a ha b hb => ?_⟩
    rw [List.mem_singleton] at hb
    subst hb
    exact hall a ha
  unfold append_bounded
  split
  · exact h2.sublist (List.drop_sublist _ _)
  · exact h2

/-- Bounded append keeps the history within the 200-bar capacity. -/
theorem append_bounded_length {hist : List Bar} {x : Bar} (h : hist.length ≤ 200) :
    (append_bounded hist x).length ≤ 200 := by
  unfold append_bounded
  split <;> simp_all

/-- Induction invariant for one interval width: strict ordering, capacity,
an empty history while no bar has opened, every historical bar older than
the current bar, and the current bar's interval start bounded by the round
of the last processed timestamp. -/
def barSetInv (m : ℕ) (st : BarSetState) (last : ℕ) : Prop :=
  List.Pairwise (fun a b : Bar => a.t < b.t) st.bars ∧
  st.bars.length ≤ 200 ∧
  (st.current_bar = none → st.bars = []) ∧
  (∀ c, st.current_bar = some c → (∀ b ∈ st.bars, b.t < c.t) ∧ c.t ≤ round_time last m)

/-- One `_update_bars` step preserves the invariant when timestamps do not
go backwards. -/
theorem update_bars_one_inv {m : ℕ} {st : BarSetState} {last ts : ℕ} {p v : ℚ}
    (hinv : barSetInv m st last) (hle : last ≤ ts) :
    barSetInv m (update_bars_one m st ts p v) ts := by
  obtain ⟨hpw, hlen, hnone, hsome⟩ := hinv
  cases hcb : st.current_bar with
  | none =>
    have hb : st.bars = [] := hnone hcb
    refine ⟨?_, ?_, ?_, ?_⟩ <;> simp [update_bars_one, hcb, hb]
  | some bar =>
    obtain ⟨hall, hT⟩ := hsome bar hcb
    have hTT : bar.t ≤ round_time ts m := le_trans hT (round_time_mono m hle)
    by_cases heq : bar.t = round_time ts m
    · refine ⟨?_, ?_, ?_, ?_⟩ <;> simp only [update_bars_one, hcb, if_pos heq]
      · exact hpw
      · exact hlen
      · intro hc; cases hc
      · intro c hc
        rw [Option.some_inj] at hc
        subst hc
        exact ⟨fun b hb => hall b hb, heq.le⟩
    · have hlt2 : bar.t < round_time ts m := lt_of_le_of_ne hTT heq
      refine ⟨?_, ?_, ?_, ?_⟩ <;> simp only [update_bars_one, hcb, if_neg heq]
      · exact append_bounded_pairwise hpw hall
      · exact append_bounded_length hlen
      · intro hc; cases hc
      · intro c hc
        rw [Option.some_inj] at hc
        subst hc
        refine ⟨fun b hb => ?_, le_refl _⟩
        rcases append_bounded_subset hb with hmem | hbx
        · exact lt_trans (hall b hmem) hlt2
        · subst hbx; exact hlt2

/-- Folding `_update_bars` over a run of trades with non-decreasing
timestamps preserves the invariant. -/
theorem foldl_update_bars_one_inv (m : ℕ) (trades : List (ℕ × ℚ × ℚ)) :
    ∀ (st : BarSetState) (last : ℕ),
      barSetInv m st last →
      List.Chain (fun a b : ℕ => a ≤ b) last (trades.map Prod.fst) →
      ∃ last', barSetInv m
        (trades.foldl (fun s tr => update_bars_one m s tr.1 tr.2.1 tr.2.2) st) last' := by
  induction trades with
  | nil => exact fun st last hinv _ => ⟨last, hinv⟩
  | cons tr rest ih =>
    intro st last hinv hchain
    rw [List.map_cons, List.chain_cons] at hchain
    exact ih _ tr.1 (update_bars_one_inv hinv hchain.1) hchain.2

/-- The 1-minute component of `process_trades` is the per-interval fold. -/
theorem process_trades_b1 (trades : List (ℕ × ℚ × ℚ)) (s : BarsState) :
    (process_trades s trades).b1 =
      trades.foldl (fun st tr => update_bars_one 1 st tr.1 tr.2.1 tr.2.2) s.b1 := by
  induction trades generalizing s with
  | nil => rfl
  | cons tr rest ih => exact ih _

/-- The 5-minute component of `process_trades` is the per-interval fold. -/
theorem process_trades_b5 (trades : List (ℕ × ℚ × ℚ)) (s : BarsState) :
    (process_trades s trades).b5 =
      trades.foldl (fun st tr => update_bars_one 5 st tr.1 tr.2.1 tr.2.2) s.b5 := by
  induction trades generalizing s with
  | nil => rfl
  | cons tr rest ih => exact ih _

/-- The 15-minute component of `process_trades` is the per-interval fold. -/
theorem process_trades_b15 (trades : List (ℕ × ℚ × ℚ)) (s : BarsState) :
    (process_trades s trades).b15 =
      trades.foldl (fun st tr => update_bars_one 15 st tr.1 tr.2.1 tr.2.2) s.b15 := by
  induction trades generalizing s with
  | nil => rfl
  | cons tr rest ih => exact ih _

/-- The invariant holds of the freshly initialised engine. -/
theorem barSetInv_init (m : ℕ) : barSetInv m ⟨[], none⟩ 0 := by
  refine ⟨List.Pairwise.nil, by simp, fun _ => rfl, fun c hc => ?_⟩
  cases hc

/-- The claimed guarantees follow from the invariant. -/
theorem goodBarHistory_of_inv {m : ℕ} {st : BarSetState} {last : ℕ}
    (h : barSetInv m st last) : goodBarHistory st := by
  obtain ⟨hpw, hlen, _, hsome⟩ := h
  refine ⟨hpw, hlen, fun c hc => (hsome c hc).1, fun c hc hmem => ?_⟩
  exact lt_irrefl c.t ((hsome c hc).1 c hmem)

/-- Executable check that a run of naturals is non-decreasing. -/
def nondecreasingB : List ℕ → Bool
  | a :: b :: l => decide (a ≤ b) && nondecreasingB (b :: l)
  | _ => true

/-- A non-decreasing run is a chain from 0. -/
theorem chain_zero_of_nondecreasingB {l : List ℕ}
    (h : nondecreasingB l = true) :
    List.Chain (fun a b : ℕ => a ≤ b) 0 l := by
  cases l with
  | nil => exact List.Chain.nil
  | cons a l =>
    refine List.Chain.cons (Nat.zero_le a) ?_
    induction l generalizing a with
    | nil => exact List.Chain.nil
    | cons b l ih =>
      rw [nondecreasingB, Bool.and_eq_true, decide_eq_true_eq] at h
      exact List.Chain.cons h.1 (ih b h.2)

/-- C4: for every sequence of processed trades whose arrival-clock
timestamps are non-decreasing (`datetime.utcnow()` readings), and each
interval width in {1, 5, 15} minutes, the bar history is strictly
time-ordered (hence no two bars share an `intervalStart`), holds at most
200 bars, never contains the still-open current bar, and the bounded
append evicts exactly the oldest bar once capacity is exceeded. -/
theorem C4_bar_invariants (trades : List (ℕ × ℚ × ℚ))
    (hmono : nondecreasingB (trades.map Prod.fst) = true) :
    goodBarHistory (process_trades initBarsState trades).b1 ∧
    goodBarHistory (process_trades initBarsState trades).b5 ∧
    goodBarHistory (process_trades initBarsState trades).b15 ∧
    ∀ (hist : List Bar) (b : Bar), hist.length = 200 →
      append_bounded hist b = hist.drop 1 ++ [b] := by
  have hchain := chain_zero_of_nondecreasingB hmono
  refine ⟨?_, ?_, ?_, ?_⟩
  · rw [process_trades_b1]
    obtain ⟨last', hinv⟩ := foldl_update_bars_one_inv 1 trades _ 0 (barSetInv_init 1) hchain
    exact goodBarHistory_of_inv hinv
  · rw [process_trades_b5]
    obtain ⟨last', hinv⟩ := foldl_update_bars_one_inv 5 trades _ 0 (barSetInv_init 5) hchain
    exact goodBarHistory_of_inv hinv
  · rw [process_trades_b15]
    obtain ⟨last', hinv⟩ := foldl_update_bars_one_inv 15 trades _ 0 (barSetInv_init 15) hchain
    exact goodBarHistory_of_inv hinv
  · intro hist b hlen
    unfold append_bounded
    have hgt : 200 < (hist ++ [b]).length := by simp [hlen]
    rw [if_pos hgt, List.drop_append_of_le_length (by omega)]

/-- A concrete non-decreasing run of trades crossing a 1-minute boundary. -/
def tradesC4 : List (ℕ × ℚ × ℚ) := [(0, 100, 1), (30, 101, 2), (60, 99, 1), (3600, 102, 3)]

/-- C4 witness: `C4_bar_invariants` applied to the concrete run
`tradesC4`. -/
theorem C4_bar_invariants_witness :
    goodBarHistory (process_trades initBarsState tradesC4).b1 ∧
    goodBarHistory (process_trades initBarsState tradesC4).b5 ∧
    goodBarHistory (process_trades initBarsState tradesC4).b15 :=
  ⟨(C4_bar_invariants tradesC4 (by with_unfolding_all decide)).1,
   (C4_bar_invariants tradesC4 (by with_unfolding_all decide)).2.1,
   (C4_bar_invariants tradesC4 (by with_unfolding_all decide)).2.2.1⟩

/-! ## SmartVolumeProfile (CouncilIndicators.py)

The profile dict keeps insertion order (Python 3.7+ dicts), which matters
for the POC selection `max(self.profile, key=self.profile.get)`: `max`
returns the first key attaining the maximal volume in iteration order.
`sorted(...)` is embedded as a stable insertion sort. -/

/-- `SmartVolumeProfile` state: the insertion-ordered price→volume map
(distinct keys) and the running total volume. -/
structure VolumeProfileState where
  profile : List (ℚ × ℚ)
  total_volume : ℚ
deriving DecidableEq, Repr

/-- `self.profile.get(level, 0.0)`. -/
def vp_get (profile : List (ℚ × ℚ)) (k : ℚ) : ℚ :=
  (((profile.find? (fun kv => decide (kv.1 = k)))).map Prod.snd).getD 0

/-- `max(self.profile, key=self.profile.get)`: the first key attaining the
maximal accumulated volume, in dict iteration (insertion) order; 0 on an
empty profile (unreachable behind the emptiness guard, where Python would
raise). -/
def poc_level (profile : List (ℚ × ℚ)) : ℚ :=
  match profile with
  | [] => 0
  | kv :: rest => (rest.foldl (fun best kv2 => if kv2.2 > best.2 then kv2 else best) kv).1

/-- Stable insertion of a price into a sorted list (`sorted(...)`). -/
def insertSorted (x : ℚ) : List ℚ → List ℚ
  | [] => [x]
  | y :: ys => if x ≤ y then x :: y :: ys else y :: insertSorted x ys

/-- `sorted(self.profile.keys())` as a stable insertion sort. -/
def sortRat (l : List ℚ) : List ℚ := l.foldr insertSorted []

/-- Stable insertion of a (price, volume) pair ordered by price
(`value_area_levels.sort()`; prices are distinct dict keys, so the
tuple-lexicographic Python sort coincides with sorting by price). -/
def insertSortedPair (x : ℚ × ℚ) : List (ℚ × ℚ) → List (ℚ × ℚ)
  | [] => [x]
  | y :: ys => if x.1 ≤ y.1 then x :: y :: ys else y :: insertSortedPair x ys

/-- `value_area_levels.sort()` as a stable insertion sort by price. -/
def sortPairs (l : List (ℚ × ℚ)) : List (ℚ × ℚ) := l.foldr insertSortedPair []

/-- The `while` loop of `get_value_areas` (CouncilIndicators.py lines
70-100): expand outward from the POC, preferring the side with the larger
next volume and the LOWER side on a tie (`next_low_vol >= next_high_vol`).
One fuel unit is consumed per iteration; the caller passes enough fuel for
the loop to run to its break condition. -/
def va_expand (profile : List (ℚ × ℚ)) (levels : List ℚ) (target : ℚ) :
    ℕ → ℕ → ℕ → ℚ → List (ℚ × ℚ) → List (ℚ × ℚ)
  | 0, _, _, _, acc => acc
  | fuel + 1, low_idx, high_idx, cum, acc =>
    if cum < target ∧ (0 < low_idx ∨ high_idx + 1 < levels.length) then
      if 0 < low_idx ∧ high_idx + 1 < levels.length then
        if vp_get profile (levels.getD (high_idx + 1) 0) ≤
           vp_get profile (levels.getD (low_idx - 1) 0) then
          va_expand profile levels target fuel (low_idx - 1) high_idx
            (cum + vp_get profile (levels.getD (low_idx - 1) 0))
            (acc ++ [(levels.getD (low_idx - 1) 0, vp_get profile (levels.getD (low_idx - 1) 0))])
        else
          va_expand profile levels target fuel low_idx (high_idx + 1)
            (cum + vp_get profile (levels.getD (high_idx + 1) 0))
            (acc ++ [(levels.getD (high_idx + 1) 0, vp_get profile (levels.getD (high_idx + 1) 0))])
      else if 0 < low_idx then
        va_expand profile levels target fuel (low_idx - 1) high_idx
          (cum + vp_get profile (levels.getD (low_idx - 1) 0))
          (acc ++ [(levels.getD (low_idx - 1) 0, vp_get profile (levels.getD (low_idx - 1) 0))])
      else if high_idx + 1 < levels.length then
        va_expand profile levels target fuel low_idx (high_idx + 1)
          (cum + vp_get profile (levels.getD (high_idx + 1) 0))
          (acc ++ [(levels.getD (high_idx + 1) 0, vp_get profile (levels.getD (high_idx + 1) 0))])
      else acc
    else acc

/-- `SmartVolumeProfile.get_value_areas` (CouncilIndicators.py lines
40-104): seed with the POC, expand outward with the tie-break above until
the target fraction of total volume is reached, return sorted by price. -/
def get_value_areas (s : VolumeProfileState) (value_area_percentage : ℚ) :
    List (ℚ × ℚ) :=
  if s.profile = [] ∨ s.total_volume = 0 then []
  else
    let poc := poc_level s.profile
    let levels_to_check := sortRat (s.profile.map Prod.fst)
    let poc_index := levels_to_check.findIdx (fun x => decide (x = poc))
    sortPairs (va_expand s.profile levels_to_check
      (s.total_volume * value_area_percentage)
      levels_to_check.length poc_index poc_index
      (vp_get s.profile poc) [(poc, vp_get s.profile poc)])

/-! ### Claim C5 — value-area tie-break extends the lower side first -/

/-- C5: in the outward walk, whenever both frontiers can expand and the
next candidate level below and above have EQUAL volume, the walk adds the
lower-price level first; and on the concrete symmetric two-level tie
(levels 99/100/101 with volumes 10/30/10, target fraction 0.70) the value
area extends to the lower price level 99, not 101. -/
theorem C5_tie_break_low (profile : List (ℚ × ℚ)) (levels : List ℚ)
    (target : ℚ) (fuel low_idx high_idx : ℕ) (cum : ℚ) (acc : List (ℚ × ℚ))
    (hcum : cum < target) (hlow : 0 < low_idx) (hhigh : high_idx + 1 < levels.length)
    (htie : vp_get profile (levels.getD (low_idx - 1) 0) =
            vp_get profile (levels.getD (high_idx + 1) 0)) :
    (va_expand profile levels target (fuel + 1) low_idx high_idx cum acc =
      va_expand profile levels target fuel (low_idx - 1) high_idx
        (cum + vp_get profile (levels.getD (low_idx - 1) 0))
        (acc ++ [(levels.getD (low_idx - 1) 0,
                  vp_get profile (levels.getD (low_idx - 1) 0))])) ∧
    get_value_areas ⟨[(100, 30), (99, 10), (101, 10)], 50⟩ (7/10) =
      [(99, 10), (100, 30)] := by
  constructor
  · rw [va_expand, if_pos ⟨hcum, Or.inl hlow⟩, if_pos ⟨hlow, hhigh⟩, if_pos htie.ge]
  · with_unfolding_all decide

/-- C5 witness: the tie-break step of `C5_tie_break_low` applied at the
concrete symmetric profile (levels sorted [99, 100, 101], POC already
seeded, both sides' next volume equal to 10). -/
theorem C5_tie_break_low_witness :
    va_expand [(100, 30), (99, 10), (101, 10)] [99, 100, 101] 35 3 1 1 30 [(100, 30)] =
      va_expand [(100, 30), (99, 10), (101, 10)] [99, 100, 101] 35 2 0 1
        (30 + vp_get [(100, 30), (99, 10), (101, 10)] ([99, 100, 101].getD (1 - 1) 0))
        ([(100, 30)] ++ [(([99, 100, 101] : List ℚ).getD (1 - 1) 0,
            vp_get [(100, 30), (99, 10), (101, 10)] ([99, 100, 101].getD (1 - 1) 0))]) :=
  (C5_tie_break_low [(100, 30), (99, 10), (101, 10)] [99, 100, 101] 35 2 1 1 30 [(100, 30)]
    (by with_unfolding_all decide) (by decide) (by decide)
    (by with_unfolding_all decide)).1

/-! ## OrderScheduler (order_scheduler.py) -/

/-- models.OrderType, restricted to the variants the scheduler and engine
use. -/
inductive OrderTypeM
  | MARKET
  | LIMIT
  | STOP
deriving DecidableEq, Repr

/-- models.ScheduledOrder, restricted to the fields
`schedule_trade_execution` sets. -/
structure ScheduledOrderM where
  contract_id : String
  order_type : OrderTypeM
  direction : TradeDirection
  size : ℤ
  execution_time : ℕ
  status : String
  original_trade_signal : TradeSignalM
deriving DecidableEq, Repr

/-- What `schedule_trade_execution` did: handed the signal straight to
`ExecutionEngine.execute_trade(trade_signal, live_mode=True, contract_size)`
or stored the order for the periodic sweep. -/
inductive ScheduleResult
  | executedImmediately (sig : TradeSignalM) (size : ℤ)
  | stored
deriving DecidableEq, Repr

/-- `OrderScheduler.schedule_trade_execution` (order_scheduler.py lines
95-122): if `execution_time` is `None` or not later than `now`
(`datetime.utcnow()`), the original signal goes straight to the Execution
Engine and nothing is stored; otherwise a `ScheduledOrder` is inserted
into the pending map under the fresh `schedule_id`. -/
def schedule_trade_execution (scheduled_orders : List (String × ScheduledOrderM))
    (trade_signal : TradeSignalM) (size : ℤ) (execution_time : Option ℕ)
    (now : ℕ) (schedule_id : String) :
    List (String × ScheduledOrderM) × ScheduleResult :=
  match execution_time with
  | none => (scheduled_orders, ScheduleResult.executedImmediately trade_signal size)
  | some t =>
    if t ≤ now then
      (scheduled_orders, ScheduleResult.executedImmediately trade_signal size)
    else
      (scheduled_orders ++ [(schedule_id,
        { contract_id := trade_signal.contract_id
          order_type := OrderTypeM.MARKET
          direction := trade_signal.direction
          size := size
          execution_time := t
          status := "scheduled"
          original_trade_signal := trade_signal })],
       ScheduleResult.stored)

/-! ### Claim C7 — absent/past execution time executes immediately -/

/-- C7: for every schedule request whose execution time is absent or not
later than the current time, `schedule_trade_execution` hands the original
signal (with the requested size) directly to the Execution Engine and
returns with the scheduled-orders map unchanged — no entry is inserted. -/
theorem C7_immediate_execution (orders : List (String × ScheduledOrderM))
    (sig : TradeSignalM) (size : ℤ) (execution_time : Option ℕ)
    (now : ℕ) (sid : String)
    (hpast : execution_time = none ∨ ∃ t, execution_time = some t ∧ t ≤ now) :
    schedule_trade_execution orders sig size execution_time now sid =
      (orders, ScheduleResult.executedImmediately sig size) := by
  rcases hpast with h | ⟨t, ht, hle⟩
  · subst h; rfl
  · subst ht
    simp only [schedule_trade_execution, if_pos hle]

/-- C7 witness: `C7_immediate_execution` at a concrete past execution time
(time 10 with current time 20) and at an absent execution time. -/
theorem C7_immediate_execution_witness :
    schedule_trade_execution [] sigC10 2 (some 10) 20 "S1" =
      ([], ScheduleResult.executedImmediately sigC10 2) ∧
    schedule_trade_execution [] sigC10 2 none 20 "S2" =
      ([], ScheduleResult.executedImmediately sigC10 2) :=
  ⟨C7_immediate_execution [] sigC10 2 (some 10) 20 "S1"
      (Or.inr ⟨10, rfl, by decide⟩),
   C7_immediate_execution [] sigC10 2 none 20 "S2" (Or.inl rfl)⟩
